import Mathlib

/-!
# Verification of the aerodata feature derivation and query engine

Shallow embedding of `aerodata/fetch.py` and `aerodata/query.py`.
Numeric values (Python floats coming from JSON, longitudes/latitudes,
feet measurements) are modelled as rationals `ℚ` wherever the code only
performs field arithmetic, comparisons and `%`; the trigonometric parts
(`math.sin`, `math.cos`, `math.atan2`, `math.radians`) are modelled over
`ℝ`.  Strings handled character-by-character (runway designators) are
modelled as `List Char`.
-/

namespace Aerodata

/-- Python's `x % 360` on numbers: the representative of `x` modulo 360
lying in `[0, 360)` (Python's `%` with a positive right operand). -/
def qmod360 (x : ℚ) : ℚ := x - 360 * ⌊x / 360⌋

/-- `_angular_distance` from `fetch.py`: minimal magnitude among
`a2 - a1`, `a2 + 360 - a1`, `a2 - 360 - a1`. -/
def angularDistance (a1 a2 : ℚ) : ℚ :=
  min |a2 - a1| (min |a2 + 360 - a1| |a2 - 360 - a1|)

/-- The end/heading reconciliation step of the runway path in
`get_features` (fetch.py lines 271-282): given the two measured ends,
the geometric magnetic bearing `heading12` from end1 to end2, and the
two designator headings `h0`, `h1`, compute
`heading21 = (heading12 + 180) % 360` and swap ends and headings when the
code's mismatch comparison fires. -/
def reconcileRunwayEnds (end1 end2 : ℚ × ℚ) (heading12 h0 h1 : ℚ) :
    (ℚ × ℚ) × (ℚ × ℚ) × ℚ × ℚ :=
  let heading21 := qmod360 (heading12 + 180)
  if angularDistance h0 heading12 + angularDistance h1 heading21 >
      angularDistance h0 heading21 + angularDistance h1 heading12 then
    (end2, end1, heading21, heading12)
  else
    (end1, end2, heading12, heading21)

/-- C1: the derivation swaps `(end1, end2)` and `(heading12, heading21)`
exactly when the swapped total angular mismatch
`angularDistance h0 heading21 + angularDistance h1 heading12` is strictly
smaller than the unswapped total
`angularDistance h0 heading12 + angularDistance h1 heading21`
(ties keep the unswapped assignment). -/
theorem reconcileRunwayEnds_swaps_iff_strictly_smaller
    (end1 end2 : ℚ × ℚ) (heading12 h0 h1 : ℚ) :
    reconcileRunwayEnds end1 end2 heading12 h0 h1 =
      (if angularDistance h0 (qmod360 (heading12 + 180)) + angularDistance h1 heading12 <
          angularDistance h0 heading12 + angularDistance h1 (qmod360 (heading12 + 180)) then
        (end2, end1, qmod360 (heading12 + 180), heading12)
      else
        (end1, end2, heading12, qmod360 (heading12 + 180))) := by
  rfl

/-! ## Query engine (`aerodata/query.py`) -/

/-- Feature geometry as produced by the derivation engine and consumed by
`select_features`: a GeoJSON `Point` or `LineString` (the only geometry
types the query loop handles; anything else raises in the source and is
never produced).  Coordinates are `(lng, lat)` pairs. -/
inductive Geometry where
  | point (c : ℚ × ℚ)
  | lineString (cs : List (ℚ × ℚ))
deriving DecidableEq, Repr

/-- The coordinate list the query loop iterates over (query.py lines
96-101): the single point, or all points of the line. -/
def geometryCoords : Geometry → List (ℚ × ℚ)
  | .point c => [c]
  | .lineString cs => cs

/-- The slice of a derived GeoJSON feature that `select_features`
inspects; the remaining properties ride along unchanged and are not
modelled. -/
structure Feature where
  elementType : String
  aerodromeIdentifier : String
  geometry : Geometry
deriving DecidableEq, Repr

/-- `AerodromeQueryParams` from `query.py`.  `page_token` is modelled as
the parsed zero-based offset (`none` covers both an absent token and the
falsy empty string); `aerodrome_identifiers` and `countries` are the
parsed comma-split sets, as lists. -/
structure AerodromeQueryParams where
  page_token : Option ℕ
  page_size : ℕ
  exclude_runways : Bool
  exclude_helipads : Bool
  exclude_aerodromes : Bool
  latA : ℚ
  latB : ℚ
  lngA : ℚ
  lngB : ℚ
  lng_wrap_180 : Bool
  aerodrome_identifiers : List String
  countries : List String
deriving DecidableEq, Repr

/-- One coordinate's geometric test (query.py lines 104-109): normalize
longitude with `% 360`, subtract 180 when `lng_wrap_180`, and require the
latitude and normalized longitude to fall inside the window. -/
def coordInWindow (query : AerodromeQueryParams) (c : ℚ × ℚ) : Bool :=
  let lng := qmod360 c.1 - (if query.lng_wrap_180 then 180 else 0)
  decide (query.latA ≤ c.2) && decide (c.2 ≤ query.latB) &&
    decide (query.lngA ≤ lng) && decide (lng ≤ query.lngB)

/-- The per-feature filter of the selection loop (query.py lines 88-120):
exclusion flags, geometric window over every coordinate, identifier set,
country set. -/
def featureMatches (query : AerodromeQueryParams) (f : Feature) : Bool :=
  !(query.exclude_aerodromes && f.elementType == "Aerodrome") &&
  !(query.exclude_helipads && f.elementType == "Helipad") &&
  !(query.exclude_runways && f.elementType == "Runway") &&
  (geometryCoords f.geometry).all (coordInWindow query) &&
  (query.aerodrome_identifiers.isEmpty ||
    query.aerodrome_identifiers.contains f.aerodromeIdentifier) &&
  (query.countries.isEmpty || query.countries.contains "USA")

/-- The page returned by `select_features`: feature list plus the
optional `metadata.next_page_token`. -/
structure FeatureCollection where
  features : List Feature
  next_page_token : Option String
deriving DecidableEq, Repr

/-- The truncation step of `select_features` (query.py lines 130-143).
In the truncation branch `skip + page_size ≥ page_size ≥ 1`, so the
source's final `if page_token:` truthiness test always passes there and
the metadata token is always emitted. -/
def paginate (features : List Feature) (skip page_size : ℕ) : FeatureCollection :=
  if 0 < page_size ∧ page_size < features.length then
    ⟨features.take page_size, some (toString (skip + page_size))⟩
  else
    ⟨features, none⟩

/-- `select_features` from `query.py`: filter, then offset pagination.
`ValueError` is modelled as `Except.error`. -/
def select_features (all_features : List Feature) (query : AerodromeQueryParams) :
    Except String FeatureCollection :=
  let features := all_features.filter (featureMatches query)
  match query.page_token with
  | some skip =>
      if features.length ≤ skip then .error "Invalid page_token"
      else .ok (paginate (features.drop skip) skip query.page_size)
  | none => .ok (paginate features 0 query.page_size)

/-- The bounding-box part of `AerodromeQueryParams.from_dict` (query.py
lines 33-53), applied to the already-float-parsed comma-split coordinate
list; returns `(latA, latB, lngA, lngB, lng_wrap_180)`. -/
def boundingBoxWindow (coords : List ℚ) : Except String (ℚ × ℚ × ℚ × ℚ × Bool) :=
  if coords.length ≠ 4 then
    .error "Expecting exactly 4 coordinates for bounding_box"
  else
    let latA := min (coords.getD 0 0) (coords.getD 2 0)
    let latB := max (coords.getD 0 0) (coords.getD 2 0)
    if latA < -90 ∨ latB > 90 ∨ latA = latB then
      .error "Invalid latitude range"
    else
      let lngA := qmod360 (min (coords.getD 1 0) (coords.getD 3 0))
      let lngB := qmod360 (max (coords.getD 1 0) (coords.getD 3 0))
      if lngA = lngB then
        .error "Invalid longitude range"
      else if lngB - lngA > 180 then
        .ok (latA, latB, lngB, lngA - 360, true)
      else
        .ok (latA, latB, lngA, lngB, false)

/-- `AerodromeQueryParams.from_dict` (query.py lines 22-71) applied to
already-tokenized request parameters: `page_size` arrives as the parsed
integer (rejected when negative), `bounding_box` as the float-parsed
coordinate list or `none` when absent (whole-world default). -/
def AerodromeQueryParams.from_parts (page_token : Option ℕ) (page_size : ℤ)
    (exclude_runways exclude_helipads exclude_aerodromes : Bool)
    (bounding_box : Option (List ℚ))
    (aerodrome_identifiers countries : List String) :
    Except String AerodromeQueryParams :=
  if page_size < 0 then .error "Invalid page_size"
  else
    match bounding_box with
    | some coords =>
        (boundingBoxWindow coords).map fun w =>
          ⟨page_token, page_size.toNat,
            exclude_runways, exclude_helipads, exclude_aerodromes,
            w.1, w.2.1, w.2.2.1, w.2.2.2.1, w.2.2.2.2,
            aerodrome_identifiers, countries⟩
    | none =>
        .ok ⟨page_token, page_size.toNat,
          exclude_runways, exclude_helipads, exclude_aerodromes,
          -90, 90, 0, 360, false,
          aerodrome_identifiers, countries⟩

theorem qmod360_nonneg (x : ℚ) : 0 ≤ qmod360 x := by
  have h : ((⌊x / 360⌋ : ℤ) : ℚ) ≤ x / 360 := Int.floor_le _
  have h2 : 360 * ((⌊x / 360⌋ : ℤ) : ℚ) ≤ 360 * (x / 360) := by linarith
  have hx : 360 * (x / 360) = x := by ring
  unfold qmod360
  linarith

theorem qmod360_lt (x : ℚ) : qmod360 x < 360 := by
  have h : x / 360 < ((⌊x / 360⌋ : ℤ) : ℚ) + 1 := Int.lt_floor_add_one _
  have h2 : 360 * (x / 360) < 360 * (((⌊x / 360⌋ : ℤ) : ℚ) + 1) := by linarith
  have hx : 360 * (x / 360) = x := by ring
  unfold qmod360
  linarith

/-- C2: `select_features` pagination.  It fails exactly when a
`page_token` is supplied whose offset reaches the filtered length;
otherwise, when `page_size > 0` and the remaining slice exceeds
`page_size`, it returns the filtered features at positions
`[offset, offset + page_size)` with `next_page_token` the string of
`offset + page_size`, and in all other cases the whole remaining slice
with no next token. -/
theorem select_features_pagination (fs : List Feature) (q : AerodromeQueryParams) :
    ((∃ e, select_features fs q = .error e) ↔
      ∃ off, q.page_token = some off ∧ (fs.filter (featureMatches q)).length ≤ off)
    ∧ ((∀ off, q.page_token = some off → off < (fs.filter (featureMatches q)).length) →
      select_features fs q =
        if 0 < q.page_size ∧
            q.page_token.getD 0 + q.page_size < (fs.filter (featureMatches q)).length then
          .ok ⟨((fs.filter (featureMatches q)).drop (q.page_token.getD 0)).take q.page_size,
            some (toString (q.page_token.getD 0 + q.page_size))⟩
        else
          .ok ⟨(fs.filter (featureMatches q)).drop (q.page_token.getD 0), none⟩) := by
  constructor
  · cases hpt : q.page_token with
    | none => simp [select_features, hpt]
    | some off =>
        by_cases hlen : (fs.filter (featureMatches q)).length ≤ off
        · simp [select_features, hpt, hlen]
        · simp [select_features, hpt, hlen]
  · intro h
    cases hpt : q.page_token with
    | none =>
        simp only [select_features, hpt, paginate, Option.getD_none, List.drop_zero,
          Nat.zero_add]
        split <;> rfl
    | some off =>
        have hlt : off < (fs.filter (featureMatches q)).length := h off hpt
        simp only [select_features, hpt, Option.getD_some]
        rw [if_neg (by omega)]
        simp only [paginate]
        have hcond : (0 < q.page_size ∧
            q.page_size < ((fs.filter (featureMatches q)).drop off).length) ↔
            (0 < q.page_size ∧
              off + q.page_size < (fs.filter (featureMatches q)).length) := by
          rw [List.length_drop]
          omega
        rw [if_congr hcond rfl rfl]
        split <;> rfl

theorem qmod360_eq_self {x : ℚ} (h0 : 0 ≤ x) (h1 : x < 360) : qmod360 x = x := by
  have hf : ⌊x / 360⌋ = 0 := by
    rw [Int.floor_eq_zero_iff, Set.mem_Ico]
    constructor
    · positivity
    · rw [div_lt_one (by norm_num)]; linarith
  unfold qmod360
  rw [hf]
  push_cast
  ring

theorem qmod360_eq_add360 {x : ℚ} (h0 : -360 ≤ x) (h1 : x < 0) : qmod360 x = x + 360 := by
  have hf : ⌊x / 360⌋ = -1 := by
    rw [Int.floor_eq_iff]
    constructor
    · rw [show ((-1 : ℤ) : ℚ) = -1 by norm_num, le_div_iff₀ (by norm_num : (0:ℚ) < 360)]
      linarith
    · push_cast
      rw [show (-1 : ℚ) + 1 = 0 by ring]
      exact div_neg_of_neg_of_pos h1 (by norm_num)
  unfold qmod360
  rw [hf]
  push_cast
  ring

/-- A feature kept by the whole-world default query: used to instantiate
the pagination theorem. -/
def sampleFeature (k : ℕ) : Feature := ⟨"Aerodrome", toString k, .point (0, 0)⟩

/-- A query with `page_token = "10"` and `page_size = 10` over the
whole-world default window. -/
def sampleQuery : AerodromeQueryParams :=
  ⟨some 10, 10, false, false, false, -90, 90, 0, 360, false, [], []⟩

theorem sampleFeature_matches (k : ℕ) :
    featureMatches sampleQuery (sampleFeature k) = true := by
  have hq : qmod360 0 = 0 := qmod360_eq_self (by norm_num) (by norm_num)
  simp [featureMatches, sampleQuery, sampleFeature, geometryCoords, coordInWindow, hq]

theorem sampleFeatures_filter :
    ((List.range 25).map sampleFeature).filter (featureMatches sampleQuery) =
      (List.range 25).map sampleFeature := by
  refine List.filter_eq_self.mpr ?_
  intro a ha
  obtain ⟨k, -, rfl⟩ := List.mem_map.mp ha
  exact sampleFeature_matches k

theorem select_features_pagination_witness :
    select_features ((List.range 25).map sampleFeature) sampleQuery =
      .ok ⟨(List.range 10).map (fun k => sampleFeature (10 + k)), some "20"⟩ := by
  have h := (select_features_pagination ((List.range 25).map sampleFeature) sampleQuery).2
    (by
      intro off hoff
      simp only [sampleQuery] at hoff
      injection hoff with h10
      subst h10
      rw [sampleFeatures_filter]
      simp)
  rw [h, sampleFeatures_filter]
  rw [if_pos (by constructor <;> simp [sampleQuery])]
  apply congrArg Except.ok
  have : sampleQuery.page_token.getD 0 = 10 := rfl
  rw [this]
  have hps : sampleQuery.page_size = 10 := rfl
  rw [hps]
  rfl

/-- A point feature used to probe the geometric filter. -/
def pointFeature (lng lat : ℚ) : Feature := ⟨"Aerodrome", "TEST", .point (lng, lat)⟩

/-- The query `from_dict` actually builds for
`bounding_box = "10,170,20,-170"`: the antimeridian-crossing box ends up
with `lngA = 190 > lngB = 170` and `lng_wrap_180 = false`. -/
def antimeridianQuery : AerodromeQueryParams :=
  ⟨none, 0, false, false, false, 10, 20, 190, 170, false, [], []⟩

/-- C7 (code behavior at the failing input): for bounding box
`"10,170,20,-170"` the parsed window is `lngA = 190, lngB = 170` with
`lng_wrap_180 = false` — an empty window — so points at longitudes 175
and -175 inside the latitude range are rejected and the selection is
empty, contradicting the spec's requirement that longitudes in
`[170,190]` (mod 360) be selected. -/
theorem antimeridian_box_selects_nothing :
    AerodromeQueryParams.from_parts none 0 false false false
        (some [10, 170, 20, -170]) [] [] = .ok antimeridianQuery
    ∧ featureMatches antimeridianQuery (pointFeature 175 15) = false
    ∧ featureMatches antimeridianQuery (pointFeature (-175) 15) = false
    ∧ select_features [pointFeature 175 15, pointFeature (-175) 15] antimeridianQuery =
        .ok ⟨[], none⟩ := by
  have h170 : qmod360 170 = 170 := qmod360_eq_self (by norm_num) (by norm_num)
  have hm170 : qmod360 (-170) = 190 := by
    rw [qmod360_eq_add360 (by norm_num) (by norm_num)]; norm_num
  have h175 : qmod360 175 = 175 := qmod360_eq_self (by norm_num) (by norm_num)
  have hm175 : qmod360 (-175) = 185 := by
    rw [qmod360_eq_add360 (by norm_num) (by norm_num)]; norm_num
  have hm1 : featureMatches antimeridianQuery (pointFeature 175 15) = false := by
    norm_num [featureMatches, antimeridianQuery, pointFeature, geometryCoords,
      coordInWindow, h175]
  have hm2 : featureMatches antimeridianQuery (pointFeature (-175) 15) = false := by
    norm_num [featureMatches, antimeridianQuery, pointFeature, geometryCoords,
      coordInWindow, hm175]
  refine ⟨?_, hm1, hm2, ?_⟩
  · simp only [AerodromeQueryParams.from_parts, boundingBoxWindow]
    norm_num [min_def, max_def, h170, hm170, antimeridianQuery, List.getD, Except.map]
  · have hf : List.filter (featureMatches antimeridianQuery)
        [pointFeature 175 15, pointFeature (-175) 15] = [] := by
      rw [List.filter_eq_nil_iff]
      intro a ha
      rcases List.mem_cons.mp ha with rfl | ha
      · rw [hm1]; simp
      · rcases List.mem_cons.mp ha with rfl | ha
        · rw [hm2]; simp
        · exact absurd ha (List.not_mem_nil a)
    unfold select_features
    rw [hf]
    rfl

theorem coordInWindow_false_of_empty_window {q : AerodromeQueryParams}
    (h : q.lngB < q.lngA) (c : ℚ × ℚ) : coordInWindow q c = false := by
  by_contra hc
  rw [Bool.not_eq_false] at hc
  simp only [coordInWindow, Bool.and_eq_true, decide_eq_true_eq] at hc
  obtain ⟨⟨⟨-, -⟩, h3⟩, h4⟩ := hc
  linarith

/-- C8: any query `from_dict` produces with `lng_wrap_180 = true` stores
an empty window (`lngB < lngA`), so the geometric filter rejects every
feature (every feature geometry has at least one coordinate), and
`select_features` returns an empty collection — or fails on any supplied
`page_token`. -/
theorem wrap_query_selects_nothing
    (pt : Option ℕ) (ps : ℤ) (er eh ea : Bool) (bb : Option (List ℚ))
    (ids cs : List String) (q : AerodromeQueryParams)
    (hq : AerodromeQueryParams.from_parts pt ps er eh ea bb ids cs = .ok q)
    (hwrap : q.lng_wrap_180 = true) :
    q.lngB < q.lngA ∧
      ∀ fs : List Feature, (∀ f ∈ fs, geometryCoords f.geometry ≠ []) →
        (q.page_token = none → select_features fs q = .ok ⟨[], none⟩) ∧
        (∀ k, q.page_token = some k →
          select_features fs q = .error "Invalid page_token") := by
  have hwin : q.lngB < q.lngA := by
    cases bb with
    | none =>
        simp only [AerodromeQueryParams.from_parts] at hq
        split at hq
        · exact Except.noConfusion hq
        · obtain rfl := (Except.ok.injEq _ _).mp hq
          simp at hwrap
    | some coords =>
        simp only [AerodromeQueryParams.from_parts] at hq
        split at hq
        · exact Except.noConfusion hq
        · cases hbw : boundingBoxWindow coords with
          | error e => rw [hbw] at hq; exact Except.noConfusion hq
          | ok w =>
              rw [hbw] at hq
              simp only [Except.map] at hq
              obtain rfl := (Except.ok.injEq _ _).mp hq
              simp only [boundingBoxWindow] at hbw
              split at hbw
              · exact Except.noConfusion hbw
              · split at hbw
                · exact Except.noConfusion hbw
                · split at hbw
                  · exact Except.noConfusion hbw
                  · split at hbw
                    · obtain rfl := (Except.ok.injEq _ _).mp hbw
                      simp only
                      have ha := qmod360_nonneg
                        (max (coords.getD 1 0) (coords.getD 3 0))
                      have hb := qmod360_lt
                        (min (coords.getD 1 0) (coords.getD 3 0))
                      linarith
                    · obtain rfl := (Except.ok.injEq _ _).mp hbw
                      simp at hwrap
  refine ⟨hwin, ?_⟩
  intro fs hfs
  have hfilter : fs.filter (featureMatches q) = [] := by
    rw [List.filter_eq_nil_iff]
    intro f hf
    have hall : (geometryCoords f.geometry).all (coordInWindow q) = false := by
      cases hg : geometryCoords f.geometry with
      | nil => exact absurd hg (hfs f hf)
      | cons c cs =>
          simp [coordInWindow_false_of_empty_window hwin]
    simp [featureMatches, hall]
  constructor
  · intro hpt
    simp [select_features, hpt, hfilter, paginate]
  · intro k hpt
    simp [select_features, hpt, hfilter]

/-- The query `from_dict` builds for `bounding_box = "10,10,20,350"`
(the only way to set `lng_wrap_180`): `lngA = 350 > lngB = -350`. -/
def wrapQuery : AerodromeQueryParams :=
  ⟨none, 0, false, false, false, 10, 20, 350, -350, true, [], []⟩

theorem wrap_query_selects_nothing_witness :
    wrapQuery.lngB < wrapQuery.lngA ∧
      select_features [pointFeature 0 0] wrapQuery = .ok ⟨[], none⟩ := by
  have h10 : qmod360 10 = 10 := qmod360_eq_self (by norm_num) (by norm_num)
  have h350 : qmod360 350 = 350 := qmod360_eq_self (by norm_num) (by norm_num)
  have hq : AerodromeQueryParams.from_parts none 0 false false false
      (some [10, 10, 20, 350]) [] [] = .ok wrapQuery := by
    simp only [AerodromeQueryParams.from_parts, boundingBoxWindow]
    norm_num [min_def, max_def, h10, h350, wrapQuery, List.getD, Except.map]
  have h := wrap_query_selects_nothing none 0 false false false
    (some [10, 10, 20, 350]) [] [] wrapQuery hq rfl
  exact ⟨h.1, (h.2 [pointFeature 0 0] (by simp [pointFeature, geometryCoords])).1 rfl⟩

/-! ## Runway record classification (`fetch.py` lines 226-231, 341-378) -/

/-- `name[0] in cs` for a designator: Python raises `IndexError` on an
empty designator (which never occurs in the processed data; theorems
assume a nonempty name), modelled as `false`. -/
def headIn (name : List Char) (cs : List Char) : Bool :=
  match name with
  | [] => false
  | c :: _ => decide (c ∈ cs)

/-- Designator normalization (fetch.py lines 226-227):
`if "-" in name and name[0] not in "HB": name = name.replace("-", "/")`.
Replacing the single character `-` by the single character `/` is a
character-wise map. -/
def desigNormalize (name : List Char) : List Char :=
  if name.contains '-' && !(headIn name ['H', 'B']) then
    name.map (fun c => if c = '-' then '/' else c)
  else name

/-- Outcome of the classification in the runway-processing loop. -/
inductive RunwayClass where
  | runway
  | helipad
  | discarded
  | unrecognized
deriving DecidableEq, Repr

/-- The classification decision of the loop (fetch.py lines 229, 344,
373, 378): runway / helipad / balloon-port discard / fatal
`NotImplementedError`.  `name.startswith("H")` on line 344 is the
first-character test `headIn name ['H']`. -/
def classifyRecord (name : List Char) (length : ℚ) : RunwayClass :=
  if (!(headIn name ['H', 'B']) && (name.contains '/' || decide (length > 800))) ||
      decide (name = ['W']) then
    .runway
  else if headIn name ['H'] || decide (length = 0) then
    .helipad
  else if headIn name ['B'] then
    .discarded
  else
    .unrecognized

/-- The claim's runway condition, in the spec's words: the name does not
start with H or B and contains `/` or the length exceeds 800 ft, or the
name is exactly `W`. -/
def specRunwayCond (n : List Char) (len : ℚ) : Prop :=
  (¬(n.headD 'A' = 'H' ∨ n.headD 'A' = 'B') ∧ (n.contains '/' = true ∨ 800 < len)) ∨
    n = ['W']

/-- The claim's helipad condition, in the spec's words: the name starts
with H or the length is zero. -/
def specHelipadCond (n : List Char) (len : ℚ) : Prop :=
  n.headD 'A' = 'H' ∨ len = 0

theorem classifyRecord_iff_aux (n : List Char) (len : ℚ) (hn : n ≠ []) :
    (classifyRecord n len = .runway ↔ specRunwayCond n len)
    ∧ (classifyRecord n len = .helipad ↔
        ¬specRunwayCond n len ∧ specHelipadCond n len)
    ∧ (classifyRecord n len = .discarded ↔
        ¬specRunwayCond n len ∧ ¬specHelipadCond n len ∧ n.headD 'A' = 'B')
    ∧ (classifyRecord n len = .unrecognized ↔
        ¬specRunwayCond n len ∧ ¬specHelipadCond n len ∧ ¬n.headD 'A' = 'B') := by
  cases n with
  | nil => exact absurd rfl hn
  | cons c rest =>
      by_cases hH : c = 'H' <;> by_cases hB : c = 'B' <;>
        by_cases hS : (c :: rest).contains '/' = true <;>
        by_cases h8 : (800 : ℚ) < len <;>
        by_cases hW : c :: rest = ['W'] <;>
        by_cases h0 : len = 0 <;>
        simp_all +contextual [classifyRecord, headIn, specRunwayCond, specHelipadCond,
          ← not_le, show ((0:ℚ) ≤ 800) by norm_num] <;>
        refine ⟨?_, ?_⟩ <;> split <;> simp

/-- C4: after hyphen-to-slash normalization, a record is classified as a
runway exactly when (its name does not start with H or B, and it contains
`/` or its length exceeds 800 ft) or its name is exactly `W`; otherwise
it is a helipad when its name starts with H or its length is zero,
discarded when its name starts with B, and unrecognized (fatal) in every
remaining case. -/
theorem classifyRecord_characterization (name : List Char) (len : ℚ) (h : name ≠ []) :
    (classifyRecord (desigNormalize name) len = .runway ↔
      specRunwayCond (desigNormalize name) len)
    ∧ (classifyRecord (desigNormalize name) len = .helipad ↔
        ¬specRunwayCond (desigNormalize name) len ∧
          specHelipadCond (desigNormalize name) len)
    ∧ (classifyRecord (desigNormalize name) len = .discarded ↔
        ¬specRunwayCond (desigNormalize name) len ∧
          ¬specHelipadCond (desigNormalize name) len ∧
          (desigNormalize name).headD 'A' = 'B')
    ∧ (classifyRecord (desigNormalize name) len = .unrecognized ↔
        ¬specRunwayCond (desigNormalize name) len ∧
          ¬specHelipadCond (desigNormalize name) len ∧
          ¬(desigNormalize name).headD 'A' = 'B') := by
  apply classifyRecord_iff_aux
  unfold desigNormalize
  split
  · cases name with
    | nil => exact absurd rfl h
    | cons c cs => simp
  · exact h

theorem classifyRecord_characterization_witness :
    classifyRecord (desigNormalize ['0', '9', '-', '2', '7']) 100 = .runway :=
  ((classifyRecord_characterization ['0', '9', '-', '2', '7'] 100 (by decide)).1).mpr
    (Or.inl ⟨by decide, Or.inl (by decide)⟩)

/-! ## Source/feature cache manager (`fetch.py` lines 150-383)

State-level model of `get_features`' cache handling.  Payloads are
abstracted to `ℕ` tokens; `stale` tells whether the cached file is
missing-or-older-than-`MAX_AGE`; the network fetch result and the
derivation are inputs of the environment.  Python exceptions propagate
immediately, leaving all file writes performed so far in place, so the
model returns the state at raise time together with the error. -/

/-- Outcome of `requests.get(...)` + `raise_for_status()`. -/
inductive FetchResult where
  | ok (payload : ℕ)
  | fail (code : ℕ)
deriving DecidableEq, Repr

/-- Environment of one `get_features` call. -/
structure CacheEnv where
  runwaysStale : Bool
  airportsStale : Bool
  fetchRunways : FetchResult
  fetchAirports : FetchResult
  deriveFeatures : ℕ → ℕ → Except ℕ ℕ

/-- On-disk cache: raw runways payload, raw airports payload, derived
features payload (`none` = file absent). -/
structure CacheState where
  runways : Option ℕ
  airports : Option ℕ
  features : Option ℕ
deriving DecidableEq, Repr

/-- Errors surfaced by `get_features`: `HTTPError` from a fetch
(upstream), or a derivation failure (data). -/
inductive GetFeaturesError where
  | upstream (code : ℕ)
  | derivation (code : ℕ)
deriving DecidableEq, Repr

/-- One dataset block of `get_features` (fetch.py lines 156-168 and
170-182): if the cached payload is missing or stale, fetch (raising on
failure), else reuse the cache.  Returns the payload and whether a
refetch (hence a raw-cache write and features-cache delete) happened. -/
def ensureFresh (cached : Option ℕ) (stale : Bool) (fetch : FetchResult) :
    Except ℕ (ℕ × Bool) :=
  match cached with
  | none =>
      match fetch with
      | .ok p => .ok (p, true)
      | .fail e => .error e
  | some c =>
      if stale then
        match fetch with
        | .ok p => .ok (p, true)
        | .fail e => .error e
      else .ok (c, false)

/-- `get_features` at cache granularity: runways block, airports block,
then reuse or regenerate the derived features cache. -/
def getFeaturesRun (env : CacheEnv) (st : CacheState) :
    CacheState × Except GetFeaturesError ℕ :=
  match ensureFresh st.runways env.runwaysStale env.fetchRunways with
  | .error e => (st, .error (.upstream e))
  | .ok (runways, refetchedR) =>
      let st1 := if refetchedR then { st with runways := some runways, features := none }
        else st
      match ensureFresh st1.airports env.airportsStale env.fetchAirports with
      | .error e => (st1, .error (.upstream e))
      | .ok (airports, refetchedA) =>
          let st2 := if refetchedA then
              { st1 with airports := some airports, features := none }
            else st1
          match st2.features with
          | some feats => (st2, .ok feats)
          | none =>
              match env.deriveFeatures runways airports with
              | .ok feats => ({ st2 with features := some feats }, .ok feats)
              | .error e => (st2, .error (.derivation e))

/-- A cache with all three payloads present, both raw datasets stale. -/
def c3State : CacheState := ⟨some 1, some 2, some 3⟩

/-- Runways fetch succeeds with payload 10, airports fetch fails. -/
def c3Env : CacheEnv := ⟨true, true, .ok 10, .fail 7, fun a b => .ok (a + b)⟩

/-- C3 counterexample: with both raw caches stale, a successful runways
fetch followed by a failing airports fetch propagates the failure but
leaves the caches changed: the runways cache holds the new payload and
the derived cache has been deleted. -/
theorem get_features_failed_fetch_mutates_cache :
    (getFeaturesRun c3Env c3State).2 = .error (.upstream 7)
    ∧ (getFeaturesRun c3Env c3State).1 ≠ c3State
    ∧ (getFeaturesRun c3Env c3State).1 = ⟨some 10, some 2, none⟩
    ∧ c3State.features = some 3 := by
  refine ⟨rfl, ?_, rfl, rfl⟩
  decide

theorem ensureFresh_error {c : Option ℕ} {s : Bool} {f : FetchResult} {e : ℕ}
    (h : ensureFresh c s f = .error e) : f = .fail e := by
  cases c with
  | none =>
      simp only [ensureFresh] at h
      cases f <;> simp_all
  | some c' =>
      simp only [ensureFresh] at h
      split at h
      · cases f <;> simp_all
      · simp_all

theorem ensureFresh_refetched {c : Option ℕ} {s : Bool} {f : FetchResult} {p : ℕ}
    (h : ensureFresh c s f = .ok (p, true)) : f = .ok p := by
  cases c with
  | none =>
      simp only [ensureFresh] at h
      cases f <;> simp_all
  | some c' =>
      simp only [ensureFresh] at h
      split at h
      · cases f <;> simp_all
      · simp_all

/-- C3 amended: when a source fetch fails, `get_features` propagates the
failure; the airports cache is never touched, and the overall cache
state is either exactly as before the call (in particular whenever the
failing fetch is the first one performed) or reflects exactly the
earlier successful runways refetch: new runways payload recorded and
derived cache deleted. -/
theorem get_features_failed_fetch (env : CacheEnv) (st : CacheState) (e : ℕ) :
    ((st.runways = none ∨ env.runwaysStale = true) → env.fetchRunways = .fail e →
      getFeaturesRun env st = (st, .error (.upstream e)))
    ∧ ((getFeaturesRun env st).2 = .error (.upstream e) →
      (getFeaturesRun env st).1.airports = st.airports ∧
      ((getFeaturesRun env st).1 = st ∨
        ∃ p, env.fetchRunways = .ok p ∧ env.fetchAirports = .fail e ∧
          (getFeaturesRun env st).1 = ⟨some p, st.airports, none⟩)) := by
  constructor
  · intro hneed hfail
    cases hr : st.runways with
    | none => simp [getFeaturesRun, ensureFresh, hr, hfail]
    | some c =>
        have hstale : env.runwaysStale = true := by
          rcases hneed with h | h
          · rw [hr] at h; exact Option.noConfusion h
          · exact h
        simp [getFeaturesRun, ensureFresh, hr, hstale, hfail]
  · intro h
    cases hr : ensureFresh st.runways env.runwaysStale env.fetchRunways with
    | error e' =>
        have hres : getFeaturesRun env st = (st, .error (.upstream e')) := by
          simp [getFeaturesRun, hr]
        rw [hres] at h
        obtain rfl : e' = e := by simpa using h
        rw [hres]
        exact ⟨rfl, Or.inl rfl⟩
    | ok pr =>
        obtain ⟨runways, refetchedR⟩ := pr
        cases refetchedR with
        | false =>
            cases ha : ensureFresh st.airports env.airportsStale env.fetchAirports with
            | error e' =>
                have hres : getFeaturesRun env st = (st, .error (.upstream e')) := by
                  simp [getFeaturesRun, hr, ha]
                rw [hres] at h
                obtain rfl : e' = e := by simpa using h
                rw [hres]
                exact ⟨rfl, Or.inl rfl⟩
            | ok pa =>
                obtain ⟨airports, refetchedA⟩ := pa
                cases refetchedA with
                | false =>
                    cases hf : st.features with
                    | some feats =>
                        exact absurd h (by simp [getFeaturesRun, hr, ha, hf])
                    | none =>
                        cases hd : env.deriveFeatures runways airports <;>
                          exact absurd h (by simp [getFeaturesRun, hr, ha, hf, hd])
                | true =>
                    cases hd : env.deriveFeatures runways airports <;>
                      exact absurd h (by simp [getFeaturesRun, hr, ha, hd])
        | true =>
            have hfr : env.fetchRunways = .ok runways := ensureFresh_refetched hr
            cases ha : ensureFresh st.airports env.airportsStale env.fetchAirports with
            | error e' =>
                have hres : getFeaturesRun env st =
                    (⟨some runways, st.airports, none⟩, .error (.upstream e')) := by
                  simp [getFeaturesRun, hr, ha]
                rw [hres] at h
                have he : e' = e := by simpa using h
                rw [he] at hres ha
                have hfa : env.fetchAirports = .fail e := ensureFresh_error ha
                rw [hres]
                exact ⟨rfl, Or.inr ⟨runways, hfr, hfa, rfl⟩⟩
            | ok pa =>
                obtain ⟨airports, refetchedA⟩ := pa
                cases refetchedA <;>
                  cases hd : env.deriveFeatures runways airports <;>
                    exact absurd h (by simp [getFeaturesRun, hr, ha, hd])

theorem get_features_failed_fetch_witness :
    getFeaturesRun ⟨true, true, .fail 5, .ok 2, fun a b => .ok (a + b)⟩
        ⟨none, some 2, some 3⟩ =
      (⟨none, some 2, some 3⟩, .error (.upstream 5)) :=
  (get_features_failed_fetch ⟨true, true, .fail 5, .ok 2, fun a b => .ok (a + b)⟩
      ⟨none, some 2, some 3⟩ 5).1 (Or.inl rfl) rfl

/-! ## Designator parser (`fetch.py` lines 23-105)

Runway names are `List Char`.  Python dict lookups become association
list lookups over the literal tables. -/

/-- `RUNWAY_HEADINGS` from `fetch.py`. -/
def RUNWAY_HEADINGS : List (List Char × ℚ) :=
  [(['N'], 0), (['N', 'N', 'E'], 22.5), (['N', 'E'], 45), (['E', 'N', 'E'], 67.5),
   (['E'], 90), (['E', 'S', 'E'], 112.5), (['S', 'E'], 135), (['S', 'S', 'E'], 157.5),
   (['S'], 180), (['S', 'S', 'W'], 202.5), (['S', 'W'], 225), (['W', 'S', 'W'], 247.5),
   (['W'], 270), (['W', 'N', 'W'], 292.5), (['N', 'W'], 315), (['N', 'N', 'W'], 337.5),
   (['A', 'L', 'L'], 0), (['W', 'A', 'Y'], 180)]

/-- `RECIPROCAL_SUFFIXES` from `fetch.py`. -/
def RECIPROCAL_SUFFIXES : List (List Char × List Char) :=
  [(['L'], ['R']), (['R'], ['L']), (['W'], ['E']), (['E'], ['W']),
   (['N'], ['S']), (['S'], ['N']),
   (['N', 'E'], ['S', 'W']), (['S', 'E'], ['N', 'W']),
   (['S', 'W'], ['N', 'E']), (['N', 'W'], ['S', 'E']),
   (['N', 'N', 'E'], ['S', 'S', 'W']), (['E', 'N', 'E'], ['W', 'S', 'W']),
   (['E', 'S', 'E'], ['W', 'N', 'W']), (['S', 'S', 'E'], ['N', 'N', 'W']),
   (['S', 'S', 'W'], ['N', 'N', 'E']), (['W', 'S', 'W'], ['E', 'N', 'E']),
   (['W', 'N', 'W'], ['E', 'S', 'E']), (['N', 'N', 'W'], ['S', 'S', 'E'])]

/-- Python `table[k]` / `k in table` over a dict literal. -/
def tableLookup {α : Type} (tbl : List (List Char × α)) (k : List Char) : Option α :=
  match tbl with
  | [] => none
  | (k', v) :: rest => if k = k' then some v else tableLookup rest k

/-- Numeric value of a digit character. -/
def charVal (c : Char) : ℕ := c.toNat - 48

/-- Numeric value of an all-digit string. -/
def digitsVal (name : List Char) : ℕ := name.foldl (fun a c => 10 * a + charVal c) 0

/-- Python `float(name)` / `int(name)` as used on the 2- or 3-character
remainder of a designator: succeeds on (nonempty) all-digit strings,
raises `ValueError` otherwise (modelled as `none`; exotic float forms
such as `"1."` that `float` would accept never reach these calls for
the designators the claims quantify over). -/
def parseDigits (name : List Char) : Option ℕ :=
  if name ≠ [] ∧ name.all Char.isDigit then some (digitsVal name) else none

/-- `_heading_of` from `fetch.py`: named-heading lookup, then suffix
strip and second lookup, then 2-digit (tens of degrees) or 3-digit
(whole degrees) numeric interpretation.  Python raises `IndexError` on
`name[-1]` for an empty name, modelled as an error. -/
def headingOf (name : List Char) : Except String ℚ :=
  match tableLookup RUNWAY_HEADINGS name with
  | some h => .ok h
  | none =>
      match name.getLast? with
      | none => .error "empty runway name"
      | some c =>
          let stripped := if ¬c.isDigit then name.dropLast else name
          match tableLookup RUNWAY_HEADINGS stripped with
          | some h => .ok h
          | none =>
              if stripped.length = 2 then
                match parseDigits stripped with
                | some n => .ok ((n : ℚ) * 10)
                | none => .error "could not parse runway number"
              else if stripped.length = 3 then
                match parseDigits stripped with
                | some n => .ok (n : ℚ)
                | none => .error "could not parse runway number"
              else .error "Could not determine heading of runway"

/-- Zero-padded 2-digit decimal rendering (`f"{m:02d}"` for `m < 100`;
here `m < 36` always).  `round(heading / 10)` in the source is exact
because `heading` is a multiple of 10. -/
def pad2 (m : ℕ) : List Char := [Nat.digitChar (m / 10), Nat.digitChar (m % 10)]

/-- Zero-padded 3-digit decimal rendering (`f"{m:03d}"` for `m < 1000`;
here `m < 360` always). -/
def pad3 (m : ℕ) : List Char :=
  [Nat.digitChar (m / 100), Nat.digitChar (m / 10 % 10), Nat.digitChar (m % 10)]

/-- The tail of `_reciprocal_runway` after the suffix has been split off
(fetch.py lines 91-105): named lookup, then numeric
`(heading + 180) % 360` re-padded to the original digit width with the
mapped suffix re-appended. -/
def recipCore (name : List Char) (suffix : List Char) : Except String (List Char) :=
  match tableLookup RECIPROCAL_SUFFIXES name with
  | some r => .ok (r ++ suffix)
  | none =>
      if name.length = 2 then
        match parseDigits name with
        | some n => .ok (pad2 ((n * 10 + 180) % 360 / 10) ++ suffix)
        | none => .error "could not parse runway number"
      else if name.length = 3 then
        match parseDigits name with
        | some n => .ok (pad3 ((n + 180) % 360) ++ suffix)
        | none => .error "could not parse runway number"
      else .error "Could not determine reciprocal runway"

/-- `_reciprocal_runway` from `fetch.py` (lines 80-105). -/
def reciprocalRunway (name : List Char) : Except String (List Char) :=
  match tableLookup RECIPROCAL_SUFFIXES name with
  | some r => .ok r
  | none =>
      match name.getLast? with
      | none => .error "empty runway name"
      | some c =>
          if ¬c.isDigit then
            match tableLookup RECIPROCAL_SUFFIXES [c] with
            | none => .error "Cannot determine reciprocal suffix"
            | some s => recipCore name.dropLast s
          else recipCore name []

theorem tableLookup_none_of_digit_head {α : Type} (tbl : List (List Char × α))
    (c : Char) (cs : List Char) (hc : c.isDigit = true)
    (htbl : ∀ p ∈ tbl, (p.1.headD '0').isDigit = false) :
    tableLookup tbl (c :: cs) = none := by
  induction tbl with
  | nil => rfl
  | cons p rest ih =>
      obtain ⟨k, v⟩ := p
      have hk := htbl (k, v) (List.mem_cons_self _ _)
      rw [tableLookup, if_neg]
      · exact ih (fun q hq => htbl q (List.mem_cons_of_mem _ hq))
      · intro he
        subst he
        simp only [List.headD_cons] at hk
        rw [hk] at hc
        exact Bool.noConfusion hc

theorem headings_none_of_digit {c : Char} {cs : List Char} (hc : c.isDigit = true) :
    tableLookup RUNWAY_HEADINGS (c :: cs) = none :=
  tableLookup_none_of_digit_head _ c cs hc (by decide)

theorem suffixes_none_of_digit {c : Char} {cs : List Char} (hc : c.isDigit = true) :
    tableLookup RECIPROCAL_SUFFIXES (c :: cs) = none :=
  tableLookup_none_of_digit_head _ c cs hc (by decide)

theorem digitChar_isDigit {k : ℕ} (hk : k < 10) : (Nat.digitChar k).isDigit = true := by
  interval_cases k <;> decide

theorem charVal_digitChar {k : ℕ} (hk : k < 10) : charVal (Nat.digitChar k) = k := by
  interval_cases k <;> decide

theorem digitsVal_pad2 {m : ℕ} (hm : m < 100) : digitsVal (pad2 m) = m := by
  unfold digitsVal pad2
  simp only [List.foldl_cons, List.foldl_nil,
    charVal_digitChar (show m / 10 < 10 by omega),
    charVal_digitChar (show m % 10 < 10 by omega)]
  omega

theorem digitsVal_pad3 {m : ℕ} (hm : m < 1000) : digitsVal (pad3 m) = m := by
  unfold digitsVal pad3
  simp only [List.foldl_cons, List.foldl_nil,
    charVal_digitChar (show m / 100 < 10 by omega),
    charVal_digitChar (show m / 10 % 10 < 10 by omega),
    charVal_digitChar (show m % 10 < 10 by omega)]
  omega

theorem pad2_all_digits (m : ℕ) (hm : m < 100) : (pad2 m).all Char.isDigit = true := by
  simp [pad2, digitChar_isDigit (show m / 10 < 10 by omega),
    digitChar_isDigit (show m % 10 < 10 by omega)]

theorem pad3_all_digits (m : ℕ) (hm : m < 1000) : (pad3 m).all Char.isDigit = true := by
  simp [pad3, digitChar_isDigit (show m / 100 < 10 by omega),
    digitChar_isDigit (show m / 10 % 10 < 10 by omega),
    digitChar_isDigit (show m % 10 < 10 by omega)]

theorem qmod360_natCast (k : ℕ) :
    qmod360 (k : ℚ) = ((k % 360 : ℕ) : ℚ) := by
  have hk : (k : ℚ) = 360 * ((k / 360 : ℕ) : ℚ) + ((k % 360 : ℕ) : ℚ) := by
    exact_mod_cast congrArg (Nat.cast : ℕ → ℚ) (Nat.div_add_mod k 360).symm
  have hdiv : (k : ℚ) / 360 = ((k / 360 : ℕ) : ℚ) + ((k % 360 : ℕ) : ℚ) / 360 := by
    rw [hk]; ring
  have hlt : ((k % 360 : ℕ) : ℚ) < 360 := by
    exact_mod_cast Nat.mod_lt k (show 0 < 360 by norm_num)
  have hge : (0 : ℚ) ≤ ((k % 360 : ℕ) : ℚ) := by positivity
  have hfloor : ⌊(k : ℚ) / 360⌋ = ((k / 360 : ℕ) : ℤ) := by
    rw [Int.floor_eq_iff]
    constructor
    · rw [Int.cast_natCast, hdiv]; linarith
    · rw [Int.cast_natCast, hdiv]; linarith
  unfold qmod360
  rw [hfloor, Int.cast_natCast]
  linarith [hk]

theorem headingOf_numeric (core suffix : List Char)
    (hdig : core.all Char.isDigit = true)
    (hlen : core.length = 2 ∨ core.length = 3)
    (hsuf : suffix = [] ∨ ∃ s, suffix = [s] ∧ s.isDigit = false) :
    headingOf (core ++ suffix) =
      .ok (if core.length = 2 then (digitsVal core : ℚ) * 10 else (digitsVal core : ℚ)) := by
  obtain ⟨c, rest, rfl⟩ : ∃ c rest, core = c :: rest := by
    cases core with
    | nil => rcases hlen with h | h <;> simp at h
    | cons c rest => exact ⟨c, rest, rfl⟩
  have hc : c.isDigit = true := List.all_eq_true.mp hdig c (by simp)
  have hlook1 : tableLookup RUNWAY_HEADINGS ((c :: rest) ++ suffix) = none := by
    rw [List.cons_append]; exact headings_none_of_digit hc
  have hp : parseDigits (c :: rest) = some (digitsVal (c :: rest)) := by
    unfold parseDigits
    rw [if_pos ⟨by simp, hdig⟩]
  rcases hsuf with rfl | ⟨s, rfl, hs⟩
  · have hld : ((c :: rest).getLast (by simp)).isDigit = true :=
      List.all_eq_true.mp hdig _ (List.getLast_mem _)
    rw [List.append_nil] at hlook1 ⊢
    rcases hlen with h2 | h3
    · simp [headingOf, hlook1, List.getLast?_eq_getLast (c :: rest) (by simp), hld,
        headings_none_of_digit hc, hp, h2]
    · simp [headingOf, hlook1, List.getLast?_eq_getLast (c :: rest) (by simp), hld,
        headings_none_of_digit hc, hp, h3]
  · have hgl : (c :: (rest ++ [s])).getLast? = some s := by
      rw [← List.cons_append]; exact List.getLast?_concat _
    have hdl : (c :: (rest ++ [s])).dropLast = c :: rest := by
      rw [← List.cons_append]; exact List.dropLast_concat
    rcases hlen with h2 | h3
    · simp [headingOf, hlook1, hgl, hs, hdl, headings_none_of_digit hc, hp, h2]
    · simp [headingOf, hlook1, hgl, hs, hdl, headings_none_of_digit hc, hp, h3]

theorem recipCore_numeric (core suffix : List Char)
    (hdig : core.all Char.isDigit = true)
    (hlen : core.length = 2 ∨ core.length = 3) :
    recipCore core suffix =
      .ok ((if core.length = 2 then pad2 ((digitsVal core * 10 + 180) % 360 / 10)
        else pad3 ((digitsVal core + 180) % 360)) ++ suffix) := by
  obtain ⟨c, rest, rfl⟩ : ∃ c rest, core = c :: rest := by
    cases core with
    | nil => rcases hlen with h | h <;> simp at h
    | cons c rest => exact ⟨c, rest, rfl⟩
  have hc : c.isDigit = true := List.all_eq_true.mp hdig c (by simp)
  have hp : parseDigits (c :: rest) = some (digitsVal (c :: rest)) := by
    unfold parseDigits
    rw [if_pos ⟨by simp, hdig⟩]
  rcases hlen with h2 | h3
  · simp [recipCore, suffixes_none_of_digit hc, hp, h2]
  · simp [recipCore, suffixes_none_of_digit hc, hp, h3]

theorem reciprocalRunway_nosuffix (core : List Char)
    (hdig : core.all Char.isDigit = true) (hne : core ≠ []) :
    reciprocalRunway core = recipCore core [] := by
  obtain ⟨c, rest, rfl⟩ : ∃ c rest, core = c :: rest := by
    cases core with
    | nil => exact absurd rfl hne
    | cons c rest => exact ⟨c, rest, rfl⟩
  have hc : c.isDigit = true := List.all_eq_true.mp hdig c (by simp)
  have hld : ((c :: rest).getLast (by simp)).isDigit = true :=
    List.all_eq_true.mp hdig _ (List.getLast_mem _)
  simp [reciprocalRunway, suffixes_none_of_digit hc,
    List.getLast?_eq_getLast (c :: rest) (by simp), hld]

theorem reciprocalRunway_with_suffix (core : List Char) (s : Char) (s' : List Char)
    (hdig : core.all Char.isDigit = true) (hne : core ≠ [])
    (hs : s.isDigit = false)
    (hlook : tableLookup RECIPROCAL_SUFFIXES [s] = some s') :
    reciprocalRunway (core ++ [s]) = recipCore core s' := by
  obtain ⟨c, rest, rfl⟩ : ∃ c rest, core = c :: rest := by
    cases core with
    | nil => exact absurd rfl hne
    | cons c rest => exact ⟨c, rest, rfl⟩
  have hc : c.isDigit = true := List.all_eq_true.mp hdig c (by simp)
  have hgl : (c :: (rest ++ [s])).getLast? = some s := by
    rw [← List.cons_append]; exact List.getLast?_concat _
  have hdl : (c :: (rest ++ [s])).dropLast = c :: rest := by
    rw [← List.cons_append]; exact List.dropLast_concat
  simp [reciprocalRunway, suffixes_none_of_digit hc, hgl, hs, hlook, hdl]

theorem tableLookup_mem {α : Type} (tbl : List (List Char × α)) (k : List Char) (v : α)
    (h : tableLookup tbl k = some v) : (k, v) ∈ tbl := by
  induction tbl with
  | nil => exact Option.noConfusion h
  | cons p rest ih =>
      obtain ⟨k', v'⟩ := p
      rw [tableLookup] at h
      split at h
      · obtain rfl := (Option.some.injEq _ _).mp h
        rename_i he
        subst he
        exact List.mem_cons_self _ _
      · exact List.mem_cons_of_mem _ (ih h)

theorem suffix_table_cases (s : Char) (r : List Char)
    (h : tableLookup RECIPROCAL_SUFFIXES [s] = some r) :
    (s = 'L' ∧ r = ['R']) ∨ (s = 'R' ∧ r = ['L']) ∨ (s = 'W' ∧ r = ['E']) ∨
    (s = 'E' ∧ r = ['W']) ∨ (s = 'N' ∧ r = ['S']) ∨ (s = 'S' ∧ r = ['N']) := by
  have hmem : ([s], r) ∈ RECIPROCAL_SUFFIXES := tableLookup_mem _ _ _ h
  simp only [RECIPROCAL_SUFFIXES, List.mem_cons, List.not_mem_nil, or_false,
    Prod.mk.injEq, List.cons.injEq, and_true] at hmem
  tauto

theorem headingOf_numeric2 (core suffix : List Char)
    (hdig : core.all Char.isDigit = true) (h2 : core.length = 2)
    (hsuf : suffix = [] ∨ ∃ s, suffix = [s] ∧ s.isDigit = false) :
    headingOf (core ++ suffix) = .ok ((digitsVal core : ℚ) * 10) := by
  rw [headingOf_numeric core suffix hdig (Or.inl h2) hsuf, if_pos h2]

theorem headingOf_numeric3 (core suffix : List Char)
    (hdig : core.all Char.isDigit = true) (h3 : core.length = 3)
    (hsuf : suffix = [] ∨ ∃ s, suffix = [s] ∧ s.isDigit = false) :
    headingOf (core ++ suffix) = .ok ((digitsVal core : ℚ)) := by
  rw [headingOf_numeric core suffix hdig (Or.inr h3) hsuf, if_neg (by omega)]

theorem recipCore_numeric2 (core suffix : List Char)
    (hdig : core.all Char.isDigit = true) (h2 : core.length = 2) :
    recipCore core suffix = .ok (pad2 ((digitsVal core * 10 + 180) % 360 / 10) ++ suffix) := by
  rw [recipCore_numeric core suffix hdig (Or.inl h2), if_pos h2]

theorem recipCore_numeric3 (core suffix : List Char)
    (hdig : core.all Char.isDigit = true) (h3 : core.length = 3) :
    recipCore core suffix = .ok (pad3 ((digitsVal core + 180) % 360) ++ suffix) := by
  rw [recipCore_numeric core suffix hdig (Or.inr h3), if_neg (by omega)]

theorem qmod_headings2 (n : ℕ) :
    (((n * 10 + 180) % 360 / 10 : ℕ) : ℚ) * 10 = qmod360 ((n : ℚ) * 10 + 180) := by
  have harith : ((n * 10 + 180) % 360 / 10) * 10 = (n * 10 + 180) % 360 := by omega
  have hcast : (n : ℚ) * 10 + 180 = ((n * 10 + 180 : ℕ) : ℚ) := by push_cast; ring
  rw [hcast, qmod360_natCast]
  conv_rhs => rw [← harith]
  push_cast
  ring

theorem qmod_headings3 (n : ℕ) :
    (((n + 180) % 360 : ℕ) : ℚ) = qmod360 ((n : ℚ) + 180) := by
  have hcast : (n : ℚ) + 180 = ((n + 180 : ℕ) : ℚ) := by push_cast; ring
  rw [hcast, qmod360_natCast]

/-- C6: for every numeric 2- or 3-digit designator, optionally carrying a
single non-digit suffix with a defined reciprocal, the reciprocal parses
back to `(heading + 180) mod 360`, preserves the digit width, and maps
the suffix through the reciprocal table; in particular `"09L"` has
reciprocal `"27R"` and `"04"` has reciprocal `"22"`. -/
theorem headingOf_reciprocalRunway (core suffix : List Char)
    (hdig : core.all Char.isDigit = true)
    (hlen : core.length = 2 ∨ core.length = 3)
    (hsuf : suffix = [] ∨ ∃ s s', suffix = [s] ∧ s.isDigit = false ∧
      tableLookup RECIPROCAL_SUFFIXES [s] = some s') :
    (∃ r h h' rdigits rsuffix,
      reciprocalRunway (core ++ suffix) = .ok r
      ∧ headingOf (core ++ suffix) = .ok h
      ∧ headingOf r = .ok h'
      ∧ h' = qmod360 (h + 180)
      ∧ r = rdigits ++ rsuffix
      ∧ rdigits.length = core.length
      ∧ rdigits.all Char.isDigit = true
      ∧ ((suffix = [] ∧ rsuffix = []) ∨
          ∃ s, suffix = [s] ∧ tableLookup RECIPROCAL_SUFFIXES [s] = some rsuffix))
    ∧ reciprocalRunway ['0', '9', 'L'] = .ok ['2', '7', 'R']
    ∧ reciprocalRunway ['0', '4'] = .ok ['2', '2'] := by
  refine ⟨?_, rfl, rfl⟩
  have hcore_ne : core ≠ [] := by
    intro h0
    rw [h0] at hlen
    simp at hlen
  rcases hsuf with rfl | ⟨s, s', rfl, hs, hlook⟩
  · rcases hlen with h2 | h3
    · refine ⟨pad2 ((digitsVal core * 10 + 180) % 360 / 10),
        (digitsVal core : ℚ) * 10,
        (((digitsVal core * 10 + 180) % 360 / 10 : ℕ) : ℚ) * 10,
        pad2 ((digitsVal core * 10 + 180) % 360 / 10), [],
        ?_, ?_, ?_, qmod_headings2 (digitsVal core), (List.append_nil _).symm,
        ?_, pad2_all_digits _ (by omega), Or.inl ⟨rfl, rfl⟩⟩
      · rw [List.append_nil, reciprocalRunway_nosuffix core hdig hcore_ne,
          recipCore_numeric2 core [] hdig h2, List.append_nil]
      · exact headingOf_numeric2 core [] hdig h2 (Or.inl rfl)
      · have hA := headingOf_numeric2 (pad2 ((digitsVal core * 10 + 180) % 360 / 10)) []
          (pad2_all_digits _ (by omega)) rfl (Or.inl rfl)
        rw [List.append_nil] at hA
        rw [hA, digitsVal_pad2
          (show (digitsVal core * 10 + 180) % 360 / 10 < 100 by omega)]
      · rw [h2]; rfl
    · refine ⟨pad3 ((digitsVal core + 180) % 360),
        (digitsVal core : ℚ),
        (((digitsVal core + 180) % 360 : ℕ) : ℚ),
        pad3 ((digitsVal core + 180) % 360), [],
        ?_, ?_, ?_, qmod_headings3 (digitsVal core), (List.append_nil _).symm,
        ?_, pad3_all_digits _ (by omega), Or.inl ⟨rfl, rfl⟩⟩
      · rw [List.append_nil, reciprocalRunway_nosuffix core hdig hcore_ne,
          recipCore_numeric3 core [] hdig h3, List.append_nil]
      · exact headingOf_numeric3 core [] hdig h3 (Or.inl rfl)
      · have hA := headingOf_numeric3 (pad3 ((digitsVal core + 180) % 360)) []
          (pad3_all_digits _ (by omega)) rfl (Or.inl rfl)
        rw [List.append_nil] at hA
        rw [hA, digitsVal_pad3
          (show (digitsVal core + 180) % 360 < 1000 by omega)]
      · rw [h3]; rfl
  · obtain ⟨c', rfl, hc'⟩ : ∃ c', s' = [c'] ∧ c'.isDigit = false := by
      rcases suffix_table_cases s s' hlook with ⟨rfl, rfl⟩ | ⟨rfl, rfl⟩ | ⟨rfl, rfl⟩ |
        ⟨rfl, rfl⟩ | ⟨rfl, rfl⟩ | ⟨rfl, rfl⟩ <;>
        exact ⟨_, rfl, by decide⟩
    have hr : reciprocalRunway (core ++ [s]) = recipCore core [c'] :=
      reciprocalRunway_with_suffix core s [c'] hdig hcore_ne hs hlook
    rcases hlen with h2 | h3
    · refine ⟨pad2 ((digitsVal core * 10 + 180) % 360 / 10) ++ [c'],
        (digitsVal core : ℚ) * 10,
        (((digitsVal core * 10 + 180) % 360 / 10 : ℕ) : ℚ) * 10,
        pad2 ((digitsVal core * 10 + 180) % 360 / 10), [c'],
        ?_, ?_, ?_, qmod_headings2 (digitsVal core), rfl,
        ?_, pad2_all_digits _ (by omega), Or.inr ⟨s, rfl, hlook⟩⟩
      · rw [hr, recipCore_numeric2 core [c'] hdig h2]
      · exact headingOf_numeric2 core [s] hdig h2 (Or.inr ⟨s, rfl, hs⟩)
      · have hA := headingOf_numeric2 (pad2 ((digitsVal core * 10 + 180) % 360 / 10)) [c']
          (pad2_all_digits _ (by omega)) rfl (Or.inr ⟨c', rfl, hc'⟩)
        rw [hA, digitsVal_pad2
          (show (digitsVal core * 10 + 180) % 360 / 10 < 100 by omega)]
      · rw [h2]; rfl
    · refine ⟨pad3 ((digitsVal core + 180) % 360) ++ [c'],
        (digitsVal core : ℚ),
        (((digitsVal core + 180) % 360 : ℕ) : ℚ),
        pad3 ((digitsVal core + 180) % 360), [c'],
        ?_, ?_, ?_, qmod_headings3 (digitsVal core), rfl,
        ?_, pad3_all_digits _ (by omega), Or.inr ⟨s, rfl, hlook⟩⟩
      · rw [hr, recipCore_numeric3 core [c'] hdig h3]
      · exact headingOf_numeric3 core [s] hdig h3 (Or.inr ⟨s, rfl, hs⟩)
      · have hA := headingOf_numeric3 (pad3 ((digitsVal core + 180) % 360)) [c']
          (pad3_all_digits _ (by omega)) rfl (Or.inr ⟨c', rfl, hc'⟩)
        rw [hA, digitsVal_pad3
          (show (digitsVal core + 180) % 360 < 1000 by omega)]
      · rw [h3]; rfl

theorem headingOf_reciprocalRunway_witness :
    (∃ r h h' rdigits rsuffix,
      reciprocalRunway ((['0', '9'] : List Char) ++ ['L']) = .ok r
      ∧ headingOf ((['0', '9'] : List Char) ++ ['L']) = .ok h
      ∧ headingOf r = .ok h'
      ∧ h' = qmod360 (h + 180)
      ∧ r = rdigits ++ rsuffix
      ∧ rdigits.length = (['0', '9'] : List Char).length
      ∧ rdigits.all Char.isDigit = true
      ∧ (((['L'] : List Char) = [] ∧ rsuffix = []) ∨
          ∃ s, (['L'] : List Char) = [s] ∧
            tableLookup RECIPROCAL_SUFFIXES [s] = some rsuffix))
    ∧ reciprocalRunway ['0', '9', 'L'] = .ok ['2', '7', 'R']
    ∧ reciprocalRunway ['0', '4'] = .ok ['2', '2'] :=
  headingOf_reciprocalRunway ['0', '9'] ['L'] (by decide) (Or.inl rfl)
    (Or.inr ⟨'L', ['R'], rfl, by decide, by decide⟩)

/-! ## Plane projection utilities over `ℝ` (`fetch.py` lines 108-129)

The trigonometric parts of the source (`math.cos`, `math.sin`,
`math.radians`) are modelled over the real numbers. -/

/-- `EARTH_CIRCUMFERENCE_FT` from `fetch.py`. -/
noncomputable def EARTH_CIRCUMFERENCE_FT : ℝ := 131482560

/-- `math.radians`. -/
noncomputable def radians (x : ℝ) : ℝ := x * Real.pi / 180

/-- `lat0` of `_flatten`: mean latitude of the ring. -/
noncomputable def meanLat (coords : List (ℝ × ℝ)) : ℝ :=
  (coords.map Prod.snd).sum / coords.length

/-- `lng0` of `_flatten`: mean longitude of the ring. -/
noncomputable def meanLng (coords : List (ℝ × ℝ)) : ℝ :=
  (coords.map Prod.fst).sum / coords.length

/-- `_flatten` from `fetch.py`: equirectangular projection onto the
tangent plane at the ring's own centroid, in feet. -/
noncomputable def flattenR (coords : List (ℝ × ℝ)) : List (ℝ × ℝ) :=
  let lat0 := meanLat coords
  let lng0 := meanLng coords
  let coslat := Real.cos (radians lat0)
  coords.map fun c =>
    ((c.1 - lng0) * EARTH_CIRCUMFERENCE_FT * coslat / 360,
     (c.2 - lat0) * EARTH_CIRCUMFERENCE_FT / 360)

/-- One point of `_unflatten`. -/
noncomputable def unflattenPoint (p : ℝ × ℝ) (lat0 lng0 : ℝ) : ℝ × ℝ :=
  (lng0 + p.1 * 360 / (EARTH_CIRCUMFERENCE_FT * Real.cos (radians lat0)),
   lat0 + p.2 * 360 / EARTH_CIRCUMFERENCE_FT)

/-- `_unflatten` from `fetch.py`. -/
noncomputable def unflattenR (xy : List (ℝ × ℝ)) (lat0 lng0 : ℝ) : List (ℝ × ℝ) :=
  xy.map (fun p => unflattenPoint p lat0 lng0)

/-- C10: `unflatten(flatten(coords), lat0, lng0)` recovers the original
ring exactly (over `ℝ`; "within floating-point tolerance" in the code)
when `lat0`, `lng0` are the ring's own centroid — whenever the centroid
latitude is not a pole (`cos ≠ 0`; in the code's floats `cos` never hits
exactly zero). -/
theorem unflatten_flatten_roundtrip (coords : List (ℝ × ℝ)) (hne : coords ≠ [])
    (hcos : Real.cos (radians (meanLat coords)) ≠ 0) :
    unflattenR (flattenR coords) (meanLat coords) (meanLng coords) = coords := by
  have hE : EARTH_CIRCUMFERENCE_FT ≠ 0 := by
    unfold EARTH_CIRCUMFERENCE_FT; norm_num
  unfold unflattenR flattenR
  rw [List.map_map]
  have hpt : ∀ c : ℝ × ℝ,
      unflattenPoint
        ((c.1 - meanLng coords) * EARTH_CIRCUMFERENCE_FT *
            Real.cos (radians (meanLat coords)) / 360,
         (c.2 - meanLat coords) * EARTH_CIRCUMFERENCE_FT / 360)
        (meanLat coords) (meanLng coords) = c := by
    intro c
    unfold unflattenPoint
    apply Prod.ext
    · show meanLng coords + _ = c.1
      field_simp
      ring
    · show meanLat coords + _ = c.2
      field_simp
  calc coords.map _ = coords.map id := List.map_congr_left (fun c _ => hpt c)
    _ = coords := List.map_id coords

/-- `name.split("/")[0]`: the designator text before the first slash. -/
def firstName (name : List Char) : List Char := name.takeWhile (fun c => c ≠ '/')

/-- The `bad_coords` branch of the runway path (fetch.py lines 296-317):
reject zero nominal length or width (`ValueError`), then estimate the two
runway endpoints from the airport position `(apLng, apLat)`, the first
designator's heading and the magnetic declination `dec` at the airport,
sized to the nominal length. -/
noncomputable def estimateBadCoordsRunway (name : List Char) (length width : ℚ)
    (dec apLng apLat : ℝ) : Except String (List (ℝ × ℝ) × Bool) :=
  if length = 0 then .error "zero length with bad coordinates"
  else if width = 0 then .error "zero width with bad coordinates"
  else
    match headingOf (firstName name) with
    | .error e => .error e
    | .ok h0 =>
        let heading := radians ((h0 : ℝ) + dec)
        let xy := [(-(length : ℝ) / 2 * Real.sin heading,
                    -(length : ℝ) / 2 * Real.cos heading),
                   ((length : ℝ) / 2 * Real.sin heading,
                    (length : ℝ) / 2 * Real.cos heading)]
        .ok (unflattenR xy apLat apLng, true)

/-- C5: a `bad_coords` runway with designator `"18"`, length 3000 and
width 100 yields exactly one two-point LineString with
`approximate = true`, centered on the airport point, whose planar length
is exactly 3000 ft and whose direction is magnetic heading 180° corrected
by the declination; and any `bad_coords` runway with zero nominal length
or width fails the derivation. -/
theorem estimateBadCoordsRunway_spec (dec lng lat : ℝ) :
    (∃ p q : ℝ × ℝ,
      estimateBadCoordsRunway ['1', '8'] 3000 100 dec lng lat = .ok ([p, q], true)
      ∧ p = unflattenPoint (-(3000 : ℝ) / 2 * Real.sin (radians (180 + dec)),
          -(3000 : ℝ) / 2 * Real.cos (radians (180 + dec))) lat lng
      ∧ q = unflattenPoint ((3000 : ℝ) / 2 * Real.sin (radians (180 + dec)),
          (3000 : ℝ) / 2 * Real.cos (radians (180 + dec))) lat lng
      ∧ (p.1 + q.1) / 2 = lng
      ∧ (p.2 + q.2) / 2 = lat
      ∧ ((3000 : ℝ) / 2 * Real.sin (radians (180 + dec)) -
            (-(3000 : ℝ) / 2 * Real.sin (radians (180 + dec)))) ^ 2 +
          ((3000 : ℝ) / 2 * Real.cos (radians (180 + dec)) -
            (-(3000 : ℝ) / 2 * Real.cos (radians (180 + dec)))) ^ 2 = 3000 ^ 2)
    ∧ (∀ (name : List Char) (len wid : ℚ) (dec' lng' lat' : ℝ),
        len = 0 ∨ wid = 0 →
        ∃ e, estimateBadCoordsRunway name len wid dec' lng' lat' = .error e) := by
  constructor
  · have hh : headingOf (firstName ['1', '8']) = .ok 180 := by
      have h18 := headingOf_numeric2 ['1', '8'] [] (by decide) rfl (Or.inl rfl)
      rw [List.append_nil] at h18
      rw [show firstName ['1', '8'] = ['1', '8'] from rfl, h18]
      norm_num [show digitsVal ['1', '8'] = 18 from by decide]
    have hcast : (((180 : ℚ) : ℝ)) = (180 : ℝ) := by norm_num
    refine ⟨_, _, ?_, rfl, rfl, ?_, ?_, ?_⟩
    · unfold estimateBadCoordsRunway
      rw [if_neg (by norm_num), if_neg (by norm_num), hh]
      simp only [unflattenR, List.map_cons, List.map_nil, hcast]
      norm_num
    · simp only [unflattenPoint]
      ring
    · simp only [unflattenPoint]
      ring
    · have hsc := Real.sin_sq_add_cos_sq (radians (180 + dec))
      linear_combination (9000000 : ℝ) * hsc
  · intro name len wid dec' lng' lat' h0
    unfold estimateBadCoordsRunway
    by_cases hl : len = 0
    · exact ⟨_, by rw [if_pos hl]⟩
    · have hw : wid = 0 := h0.resolve_left hl
      exact ⟨_, by rw [if_neg hl, if_pos hw]⟩

theorem estimateBadCoordsRunway_spec_witness :
    ∃ e, estimateBadCoordsRunway ['1', '8'] 0 100 0 0 0 = .error e :=
  (estimateBadCoordsRunway_spec 0 0 0).2 ['1', '8'] 0 100 0 0 0 (Or.inl rfl)

theorem unflatten_flatten_roundtrip_witness :
    unflattenR (flattenR [((5 : ℝ), (0 : ℝ))]) (meanLat [((5 : ℝ), (0 : ℝ))])
      (meanLng [((5 : ℝ), (0 : ℝ))]) = [((5 : ℝ), (0 : ℝ))] :=
  unflatten_flatten_roundtrip [(5, 0)] (by simp) (by simp [meanLat, radians])

/-! ## Helipad emission (`fetch.py` lines 344-372) -/

/-- The geometry/approximate pair the helipad path emits (fetch.py lines
350-362): if the ring coordinates are genuine, the centroid of all ring
vertices but the closing one (`coords[0:-1]`, divisor `len(coords) - 1`);
with `bad_coords`, the owning airport's geometry. -/
def helipadGeometry (ring : List (ℚ × ℚ)) (badCoords : Bool) (apGeometry : Geometry) :
    Geometry × Bool :=
  if !badCoords then
    (Geometry.point ((ring.dropLast.map Prod.fst).sum / ((ring.length : ℚ) - 1),
      (ring.dropLast.map Prod.snd).sum / ((ring.length : ℚ) - 1)), false)
  else
    (apGeometry, true)

/-- C9 counterexample: for the standard 5-coordinate closed quadrilateral
ring `[(0,0),(4,0),(4,2),(0,2),(0,0)]` of a helipad-classified record
(e.g. designator `"H1"`, length 40), the emitted geometry is the centroid
of the four non-closing vertices, `(2, 1)`, not the centroid of the first
three distinct vertices, `(8/3, 2/3)`. -/
theorem helipad_centroid_first_three_counterexample :
    classifyRecord ['H', '1'] 40 = .helipad
    ∧ helipadGeometry [(0, 0), (4, 0), (4, 2), (0, 2), (0, 0)] false
        (Geometry.point (9, 9)) = (Geometry.point (2, 1), false)
    ∧ Geometry.point (((0 : ℚ) + 4 + 4) / 3, ((0 : ℚ) + 0 + 2) / 3) ≠
        Geometry.point (2, 1) := by
  refine ⟨by decide, ?_, ?_⟩
  · unfold helipadGeometry
    norm_num
  · intro h
    rw [Geometry.point.injEq, Prod.mk.injEq] at h
    have := h.1
    norm_num at this

/-- C9 amended: for every helipad-classified record, when the ring is
genuine (`bad_coords = false`) the emitted geometry is the Point at the
centroid of all ring vertices except the closing point with
`approximate = false`; with `bad_coords = true` it is the owning
airport's geometry with `approximate = true`. -/
theorem helipadGeometry_characterization (nm : List Char) (len : ℚ)
    (ring : List (ℚ × ℚ)) (apGeo : Geometry)
    (hclass : classifyRecord nm len = .helipad) (hne : ring ≠ []) :
    helipadGeometry ring false apGeo =
      (Geometry.point ((ring.dropLast.map Prod.fst).sum / (ring.dropLast.length : ℚ),
        (ring.dropLast.map Prod.snd).sum / (ring.dropLast.length : ℚ)), false)
    ∧ helipadGeometry ring true apGeo = (apGeo, true) := by
  have h1 : 1 ≤ ring.length := by
    cases ring with
    | nil => exact absurd rfl hne
    | cons c rest => simp
  have hlen : ((ring.dropLast.length : ℕ) : ℚ) = (ring.length : ℚ) - 1 := by
    rw [List.length_dropLast]
    push_cast [Nat.cast_sub h1]
    ring
  constructor
  · unfold helipadGeometry
    rw [hlen]
    rfl
  · rfl

theorem helipadGeometry_characterization_witness :
    helipadGeometry [(0, 0), (4, 0), (4, 2), (0, 2), (0, 0)] false
        (Geometry.point (9, 9)) =
      (Geometry.point
        (([(0, 0), (4, 0), (4, 2), (0, 2), (0, 0)].dropLast.map
            (Prod.fst (α := ℚ) (β := ℚ))).sum /
          (([((0 : ℚ), (0 : ℚ)), (4, 0), (4, 2), (0, 2), (0, 0)].dropLast.length : ℚ)),
         ([(0, 0), (4, 0), (4, 2), (0, 2), (0, 0)].dropLast.map
            (Prod.snd (α := ℚ) (β := ℚ))).sum /
          (([((0 : ℚ), (0 : ℚ)), (4, 0), (4, 2), (0, 2), (0, 0)].dropLast.length : ℚ))),
        false)
    ∧ helipadGeometry [(0, 0), (4, 0), (4, 2), (0, 2), (0, 0)] true
        (Geometry.point (9, 9)) = (Geometry.point (9, 9), true) :=
  helipadGeometry_characterization ['H', '1'] 40
    [(0, 0), (4, 0), (4, 2), (0, 2), (0, 0)] (Geometry.point (9, 9))
    (by decide) (by decide)

end Aerodata
